import Mathlib

/-!
Verification development for the barcode-shopping-cart application
(single file `app.py`: Flask handlers over a SQLite cart table and an
append-only orders table, with a Razorpay payment gateway).

The embedding below follows the source closely:
* the `cart` table is a list of `CartLine` rows (barcode, name, price, qty);
* the `orders` table is a list of `Order` rows, appended at the end
  (the AUTOINCREMENT surrogate id is the list position and the
  CURRENT_TIMESTAMP column carries no information used by any claim,
  so neither is modelled as a field);
* each route handler becomes a pure function from the current state
  (plus parameters abstracting the outside world: gateway configuration,
  signature-verification outcome, storage-failure injection, clock and
  random draw for the order number) to the next state and an HTTP response;
* SQLite INTEGER columns are modelled as `Int`, Python `str` as `String`
  (the catalog loader, which does character-level work, uses `List Char`).
-/

namespace BarcodeApp

/-! ## Cart store (table `cart`, created in `init_db`, app.py lines 100-107) -/

/-- One row of the `cart` table: `barcode TEXT PRIMARY KEY, name TEXT,
price INTEGER, qty INTEGER`. -/
structure CartLine where
  barcode : String
  name : String
  price : Int
  qty : Int
deriving DecidableEq, Repr

/-- One row of the `orders` table that a claim can observe:
`order_number TEXT UNIQUE, total INTEGER, status TEXT`. -/
structure Order where
  order_number : String
  total : Int
  status : String
deriving DecidableEq, Repr

/-- The persistent state of the application: the shared cart and the
append-only order ledger. -/
structure AppState where
  cart : List CartLine
  orders : List Order
deriving DecidableEq, Repr

/-- `total = sum(i[2] * i[3] for i in cart) if cart else 0`
(app.py lines 187, 385 and 478). -/
def cartTotal (cart : List CartLine) : Int :=
  if cart.isEmpty then 0 else (cart.map (fun l => l.price * l.qty)).sum

/-- The unguarded total of `create_order`, app.py line 415:
`total = sum(i[2] * i[3] for i in cart)` (only reached with a non-empty
cart, so the missing `if cart else 0` makes no difference; proved in the
claim C4 theorem). -/
def createOrderTotal (cart : List CartLine) : Int :=
  (cart.map (fun l => l.price * l.qty)).sum

/-- Python `int(q)` on a non-negative-or-negative rational: truncation
toward zero.  On a `Rat` this is exactly `num.tdiv den`. -/
def pyInt (q : ℚ) : Int :=
  q.num.tdiv (q.den : Int)

/-- `final_amount = int(total * 1.05)` (app.py lines 397, 416 and 479),
rendered with exact rational arithmetic: multiply by 1.05 and truncate
toward zero.  The Python source evaluates `total * 1.05` in IEEE-754
double precision; theorem `claim_C4` below proves that for
`0 ≤ total ≤ 2 ^ 45` (far beyond any reachable cart total) every
round-to-nearest evaluation of the double product agrees with this
exact definition, so the two semantics coincide on the whole domain the
application can reach. -/
def finalAmount (total : Int) : Int :=
  pyInt ((total : ℚ) * 1.05)

/-- `create_order` computes `final_amount` from the unguarded sum
(app.py lines 415-416). -/
def createOrderFinalAmount (cart : List CartLine) : Int :=
  finalAmount (createOrderTotal cart)

/-- `payment_success` recomputes `final_amount` from the guarded sum
(app.py lines 478-479). -/
def paymentVerifyFinalAmount (cart : List CartLine) : Int :=
  finalAmount (cartTotal cart)

/-! ## Order number generator (`generate_order_number`, app.py lines 128-132) -/

/-- Decimal digit characters, most significant first, by fuel recursion
(the fuel `n + 1` always suffices since a number has at most `n + 1`
decimal digits). -/
def decDigitsAux : Nat → Nat → List Char
  | 0, _ => []
  | fuel + 1, n =>
      if n < 10 then [Char.ofNat (48 + n)]
      else decDigitsAux fuel (n / 10) ++ [Char.ofNat (48 + n % 10)]

/-- Decimal digit characters of a natural number, most significant first. -/
def decDigits (n : Nat) : List Char :=
  decDigitsAux (n + 1) n

/-- `generate_order_number`: `f"{int(time.time()) % 1000}{random.randint(100, 999)}"`,
parametrised by the clock reading `t` and the random draw `r`. -/
def generate_order_number (t r : Nat) : String :=
  String.mk (decDigits (t % 1000) ++ decDigits r)

/-! ## Cart operations

The handlers `home` (POST branch), `add_to_cart`, `update` and `delete`
mutate the cart.  Each is a single SQLite transaction (the `with get_db()`
context manager commits on success and rolls back if the body raises), so
each is modelled as a pure function on the cart list. -/

/-- The upsert of `home` (app.py lines 154-172) and `add_to_cart`
(lines 231-248): if a row with this barcode exists, `UPDATE cart SET
qty = qty + ?  WHERE barcode=?`, else `INSERT INTO cart VALUES (?,?,?,?)`. -/
def addOrIncrement (cart : List CartLine) (b n : String) (p q : Int) : List CartLine :=
  if cart.any (fun l => l.barcode == b) then
    cart.map (fun l => if l.barcode = b then { l with qty := l.qty + q } else l)
  else
    cart ++ [⟨b, n, p, q⟩]

/-- `update(barcode, "inc")` (app.py lines 348-351):
`UPDATE cart SET qty = qty + 1 WHERE barcode=?`. -/
def incItem (cart : List CartLine) (b : String) : List CartLine :=
  cart.map (fun l => if l.barcode = b then { l with qty := l.qty + 1 } else l)

/-- `update(barcode, "dec")` (app.py lines 352-356):
`UPDATE cart SET qty = qty - 1 WHERE barcode=?` followed by
`DELETE FROM cart WHERE qty <= 0` (the delete scans the whole table). -/
def decItem (cart : List CartLine) (b : String) : List CartLine :=
  (cart.map (fun l => if l.barcode = b then { l with qty := l.qty - 1 } else l)).filter
    (fun l => decide (0 < l.qty))

/-- `delete(barcode)` (app.py line 370): `DELETE FROM cart WHERE barcode=?`. -/
def deleteItem (cart : List CartLine) (b : String) : List CartLine :=
  cart.filter (fun l => !(l.barcode == b))

/-- `DELETE FROM cart` (app.py line 489), the post-payment bulk clear. -/
def clearCart (_cart : List CartLine) : List CartLine :=
  []

/-- The cart invariant: the PRIMARY KEY makes each barcode appear in at
most one row, and every row keeps `qty ≥ 1`. -/
def CartInv (cart : List CartLine) : Prop :=
  (cart.map (fun l => l.barcode)).Nodup ∧ ∀ l ∈ cart, 1 ≤ l.qty

instance (cart : List CartLine) : Decidable (CartInv cart) := by
  unfold CartInv; infer_instance

/-- Quantity coercion of the `home` POST branch (app.py lines 142-147):
`int(request.form.get("qty", "1"))`, falling back to 1 when parsing
raises and clamping results below 1 up to 1.  `none` stands for a raw
value that `int()` rejects; an absent field arrives as `some 1` via the
`"1"` default. -/
def coerceQty (raw : Option Int) : Int :=
  match raw with
  | none => 1
  | some q => if q < 1 then 1 else q

/-- One scan of a known product through the `home` POST branch: the
upsert with the coerced quantity. -/
def scanAdd (cart : List CartLine) (b n : String) (p : Int) (raw : Option Int) : List CartLine :=
  addOrIncrement cart b n p (coerceQty raw)

/-- Total quantity carried by barcode `b` in the cart (the quantity of
the unique matching line when the primary-key invariant holds, 0 when
the barcode is absent). -/
def qtyOf (cart : List CartLine) (b : String) : Int :=
  ((cart.filter (fun l => l.barcode == b)).map (fun l => l.qty)).sum

/-! ## HTTP surface: checkout, create-order, payment-success -/

/-- `url_for("home")`. -/
def homeUrl : String := "/"

/-- `url_for("checkout")`. -/
def checkoutUrl : String := "/checkout"

/-- Outcome of `GET /checkout` (app.py lines 379-400): either a redirect
back to the cart-review page `/`, or the rendered checkout summary.
`dbOk` injects the cart-read failure branch (lines 386-389), which also
redirects home. -/
inductive CheckoutResult where
  | redirectHome : CheckoutResult
  | render (cart : List CartLine) (total fa : Int) : CheckoutResult
deriving DecidableEq, Repr

/-- `GET /checkout`: load the cart (on failure redirect home), redirect
home when the cart is empty, otherwise render with
`final_amount = int(total * 1.05)`. -/
def checkout (dbOk : Bool) (st : AppState) : CheckoutResult :=
  if dbOk = false then .redirectHome
  else if st.cart.isEmpty then .redirectHome
  else .render st.cart (cartTotal st.cart) (finalAmount (cartTotal st.cart))

/-- Response of `POST /create-order`.  `gatewayCalled` records whether
`razorpay_client.order.create` was reached. -/
structure CreateOrderResponse where
  status : Nat
  error : Option String
  order_id : Option String
  amount : Option Int
  gatewayCalled : Bool
deriving DecidableEq, Repr

/-- `POST /create-order` (app.py lines 403-449).  `configured` abstracts
`razorpay_client` being non-None, `dbOk` the cart read succeeding, and
`gw` the gateway call outcome (`Except.error msg` when `order.create`
raises, in which case the handler returns `str(e)` with a 500).  The
handler never writes to the cart or the orders table, so the state is
returned unchanged on every path. -/
def create_order (configured dbOk : Bool) (gw : Except String String)
    (st : AppState) : AppState × CreateOrderResponse :=
  if configured = false then
    (st, ⟨500, some "Razorpay not configured", none, none, false⟩)
  else if dbOk = false then
    (st, ⟨500, some "database error", none, none, false⟩)
  else if st.cart.isEmpty then
    (st, ⟨400, some "Cart is empty", none, none, false⟩)
  else
    match gw with
    | .ok oid =>
        (st, ⟨200, none, some oid, some (createOrderFinalAmount st.cart * 100), true⟩)
    | .error msg =>
        (st, ⟨500, some msg, none, none, true⟩)

/-- JSON response of `POST /payment-success`. -/
structure PayResponse where
  status : Nat
  success : Bool
  error : Option String
  message : Option String
  redirect : String
deriving DecidableEq, Repr

/-- `POST /payment-success` (app.py lines 452-515), the
verify-and-commit transition.

* `configured` abstracts `razorpay_client` being non-None (lines 462-463);
* `sigOk` abstracts `verify_payment_signature` not raising
  `SignatureVerificationError` (lines 473 and 500-506);
* `insertOk` and `clearOk` inject storage failures of the order INSERT
  (lines 483-486) and the cart DELETE (line 489).  Both statements run
  inside one `with get_db()` context manager with a single trailing
  `commit()`, so a failure of either raises before the commit, the
  context manager rolls the open transaction back, and the outer
  `except` returns a 500 error: the state is unchanged on that path;
* `t` and `r` are the clock reading and random draw fed to
  `generate_order_number` (line 482). -/
def payment_success (configured sigOk insertOk clearOk : Bool) (t r : Nat)
    (st : AppState) : AppState × PayResponse :=
  if configured = false then
    (st, ⟨500, false, some "Payment gateway not configured.", none, homeUrl⟩)
  else if sigOk = false then
    (st, ⟨400, false, some "Payment verification failed. Please contact support.",
          none, checkoutUrl⟩)
  else
    let fa := finalAmount (cartTotal st.cart)
    let ono := generate_order_number t r
    if insertOk && clearOk then
      (⟨[], st.orders ++ [⟨ono, fa, "completed"⟩]⟩,
       ⟨200, true, none, some ("Payment successful! Order #" ++ ono), homeUrl⟩)
    else
      (st, ⟨500, false, some "Error processing payment. Please contact support.",
            none, checkoutUrl⟩)

/-! ## Catalog loader (`load_products`, app.py lines 36-85)

The loader does character-level work, so lines are modelled as `List Char`.
Python `str.strip()` and `int()` accept some non-ASCII whitespace and
digits; the model restricts to the ASCII repertoire, which covers every
catalog the application documents. -/

/-- ASCII whitespace stripped by `str.strip()`. -/
def isPySpace (c : Char) : Bool :=
  c == ' ' || c == '\t' || c == '\n' || c == '\r' || c == '\x0b' || c == '\x0c'

/-- `s.strip()`. -/
def trimChars (cs : List Char) : List Char :=
  ((cs.dropWhile isPySpace).reverse.dropWhile isPySpace).reverse

/-- `s.split(",")`: fields between commas, preserving empty fields, with
`splitComma [] = [[]]` exactly as in Python. -/
def splitComma : List Char → List (List Char)
  | [] => [[]]
  | ',' :: rest => [] :: splitComma rest
  | c :: rest =>
      match splitComma rest with
      | [] => [[c]]
      | g :: gs => (c :: g) :: gs

/-- Tail of a Python integer literal after its first digit: digits with
single interior underscores. -/
def digitsTail : List Char → Bool
  | [] => true
  | '_' :: c :: rest => c.isDigit && digitsTail rest
  | ['_'] => false
  | c :: rest => c.isDigit && digitsTail rest

/-- A Python `digitpart`: nonempty, starts with a digit, single interior
underscores only. -/
def digitPartOk : List Char → Bool
  | [] => false
  | c :: rest => c.isDigit && digitsTail rest

/-- Numeric value of a digit string, ignoring underscores. -/
def digitsValue (cs : List Char) : Nat :=
  (cs.filter (fun c => !(c == '_'))).foldl (fun a c => 10 * a + (c.toNat - 48)) 0

/-- Python `int(s)` on an already-stripped string: optional sign followed
by a digit part; `none` when `int()` raises `ValueError`. -/
def pyParseInt (cs : List Char) : Option Int :=
  match cs with
  | '+' :: rest => if digitPartOk rest then some (digitsValue rest : Int) else none
  | '-' :: rest => if digitPartOk rest then some (-(digitsValue rest : Int)) else none
  | _ => if digitPartOk cs then some ((digitsValue cs : Nat) : Int) else none

/-- A catalog entry: `{"name": name.strip(), "price": price}`. -/
structure CatProduct where
  name : List Char
  price : Int
deriving DecidableEq, Repr

/-- Processing of one catalog line (app.py lines 46-79): strip, skip
blank lines, split on commas, require exactly 3 fields, require a
nonempty stripped barcode, parse the stripped price with `int()`
(skipping on failure), replace a negative price by its absolute value. -/
def parseLine (line : List Char) : Option (List Char × CatProduct) :=
  if trimChars line = [] then none
  else
    match splitComma (trimChars line) with
    | [b, n, p] =>
        if trimChars b = [] then none
        else
          match pyParseInt (trimChars p) with
          | none => none
          | some v => some (trimChars b, ⟨trimChars n, if v < 0 then -v else v⟩)
    | _ => none

/-- Python dict assignment `products[k] = v`: replace the value in place
when the key exists, append otherwise. -/
def dictSet (d : List (List Char × CatProduct)) (k : List Char) (v : CatProduct) :
    List (List Char × CatProduct) :=
  if d.any (fun kv => kv.1 == k) then
    d.map (fun kv => if kv.1 == k then (k, v) else kv)
  else
    d ++ [(k, v)]

/-- `load_products()`: `none` models an absent `products.txt`
(`os.path.exists` false, lines 40-42), which yields the empty mapping;
otherwise each line is processed in order with last-wins dict
assignment. -/
def load_products : Option (List (List Char)) → List (List Char × CatProduct)
  | none => []
  | some lines =>
      lines.foldl
        (fun acc line =>
          match parseLine line with
          | none => acc
          | some (b, pr) => dictSet acc b pr)
        []

/-- The exclusion condition of claim C9, stated in the vocabulary of the
spec: comma-split field count differs from 3, or the stripped barcode is
empty, or the stripped price fails integer parsing. -/
def lineExcluded (line : List Char) : Prop :=
  (splitComma (trimChars line)).length ≠ 3 ∨
    (∃ f0 f1 f2, splitComma (trimChars line) = [f0, f1, f2] ∧
      (trimChars f0 = [] ∨ pyParseInt (trimChars f2) = none))

/-! ## The IEEE-754 side of `int(total * 1.05)` -/

/-- The IEEE-754 binary64 value nearest to 1.05, as an exact rational:
`4728779608739021 / 2 ^ 52`.  It exceeds 21/20 by `1 / (5 * 2 ^ 52)`. -/
def c105 : ℚ := 4728779608739021 / 4503599627370496

/-- Abstraction of rounding the exact product `x` to the nearest binary64
value `r`, for positive normal `x`: the relative error is at most
`2 ^ -53`, and rounding to nearest never crosses an exactly representable
value, in particular no integer up to `2 ^ 53` lying at or below `x` can
end up above `r`. -/
def RoundNearest (x r : ℚ) : Prop :=
  |r - x| ≤ x / 2 ^ 53 ∧ ∀ k : Nat, k ≤ 2 ^ 53 → (k : ℚ) ≤ x → (k : ℚ) ≤ r

/-! ## Shared helper lemmas -/

theorem pyInt_eq_floor (q : ℚ) (h : 0 ≤ q) : pyInt q = ⌊q⌋ := by
  rw [Rat.floor_def, pyInt, Int.tdiv_eq_ediv (Rat.num_nonneg.mpr h) (by positivity)]

theorem finalAmount_of_nonneg (n : Int) (h : 0 ≤ n) : finalAmount n = 21 * n / 20 := by
  have hq : (0 : ℚ) ≤ (n : ℚ) * 1.05 := by
    have : (0 : ℚ) ≤ (n : ℚ) := by exact_mod_cast h
    nlinarith
  rw [finalAmount, pyInt_eq_floor _ hq,
    show ((n : ℚ) * 1.05) = ((21 * n : Int) : ℚ) / ((20 : Nat) : ℚ) by push_cast; ring]
  simpa using Rat.floor_intCast_div_natCast (21 * n) 20

theorem finalAmount_zero : finalAmount 0 = 0 := by
  rw [finalAmount_of_nonneg 0 le_rfl]; decide

theorem decDigitsAux_ne_nil (fuel n : Nat) : decDigitsAux (fuel + 1) n ≠ [] := by
  unfold decDigitsAux
  split
  · simp
  · simp

theorem one_le_length_generate (t r : Nat) : 1 ≤ (generate_order_number t r).length := by
  have h1 : 0 < (decDigitsAux (t % 1000 + 1) (t % 1000)).length :=
    List.length_pos.mpr (decDigitsAux_ne_nil (t % 1000) (t % 1000))
  simp only [generate_order_number, String.length, decDigits, List.length_append]
  omega

/-! ## Claims about the payment endpoints -/

/-- Claim C3 (confirmed): a `verifyAndCommit` call whose signature
verification fails leaves both the cart and the order ledger exactly
unchanged, returns the signature-mismatch error with HTTP 400, and
redirects the caller back to checkout. -/
theorem claim_C3 (iOk cOk : Bool) (t r : Nat) (st : AppState) :
    payment_success true false iOk cOk t r st =
      (st, ⟨400, false, some "Payment verification failed. Please contact support.",
            none, checkoutUrl⟩) := rfl

/-- Claim C10 (confirmed): `verifyAndCommit` does not require a non-empty
cart: with a verified signature and an empty cart it still succeeds,
appending one Order row with total 0 and status "completed" and returning
a success response. -/
theorem claim_C10 (t r : Nat) (orders : List Order) :
    payment_success true true true true t r ⟨[], orders⟩ =
      (⟨[], orders ++ [⟨generate_order_number t r, 0, "completed"⟩]⟩,
       ⟨200, true, none,
        some ("Payment successful! Order #" ++ generate_order_number t r), homeUrl⟩) := by
  have h0 : finalAmount (cartTotal ([] : List CartLine)) = 0 := by
    simp [cartTotal, finalAmount_zero]
  simp [payment_success, h0]

/-- Claim C1, amended (corrected): a `verifyAndCommit` call whose
signature verification succeeds leaves the cart empty, appends exactly
one new Order row whose status is "completed" and whose total equals the
recomputed final amount, `floor(1.05 * cartTotal)` of the cart at
verification time (not the raw cart total), and returns a non-empty
order number with a success response. -/
theorem claim_C1 (t r : Nat) (st : AppState) :
    (payment_success true true true true t r st).1.cart = [] ∧
    (payment_success true true true true t r st).1.orders =
      st.orders ++
        [⟨generate_order_number t r, finalAmount (cartTotal st.cart), "completed"⟩] ∧
    (payment_success true true true true t r st).2.success = true ∧
    1 ≤ (generate_order_number t r).length :=
  ⟨rfl, rfl, rfl, one_le_length_generate t r⟩

/-- Claim C1 counterexample: with one cart line of price 100 and
quantity 1, the cart total at verification time is 100, but the single
appended Order row stores total 105 = floor(100 * 1.05), so the
committed total does not equal the cart total the claim asserts. -/
theorem cex_C1 :
    (payment_success true true true true 3 500
        ⟨[⟨"A", "Apple", 100, 1⟩], []⟩).1.orders =
      [⟨"3500", 105, "completed"⟩] ∧
    cartTotal [⟨"A", "Apple", 100, 1⟩] = 100 ∧ (105 : Int) ≠ 100 := by
  have hc : cartTotal [⟨"A", "Apple", 100, 1⟩] = 100 := by decide
  have hf : finalAmount (cartTotal [⟨"A", "Apple", 100, 1⟩]) = 105 := by
    rw [hc, finalAmount_of_nonneg 100 (by norm_num)]; decide
  refine ⟨?_, hc, by decide⟩
  simp [payment_success, hf]
  decide

/-- Claim C2 (confirmed): in `verifyAndCommit` the Order insert and the
cart clear form one atomic transition: either both happen (cart cleared,
exactly one row appended) or, when either write fails, the transaction
rolls back, the state is exactly the pre-call state — in particular the
cart is never cleared when the insert fails — and a 500 error is
surfaced to the caller. -/
theorem claim_C2 (insertOk clearOk : Bool) (t r : Nat) (st : AppState) :
    ((payment_success true true insertOk clearOk t r st).1 =
        ⟨[], st.orders ++
          [⟨generate_order_number t r, finalAmount (cartTotal st.cart), "completed"⟩]⟩ ∨
      (payment_success true true insertOk clearOk t r st).1 = st) ∧
    (insertOk = false →
      (payment_success true true insertOk clearOk t r st).1.cart = st.cart ∧
      (payment_success true true insertOk clearOk t r st).2.status = 500 ∧
      (payment_success true true insertOk clearOk t r st).2.error ≠ none) ∧
    (clearOk = false →
      (payment_success true true insertOk clearOk t r st).1 = st ∧
      (payment_success true true insertOk clearOk t r st).2.status = 500) := by
  cases insertOk <;> cases clearOk <;> simp [payment_success]

/-- Claim C2 witness: a concrete run in which the Order insert fails
leaves the one-line cart untouched and surfaces a 500 error. -/
theorem wit_C2 :
    (payment_success true true false true 0 100
        ⟨[⟨"A", "Apple", 100, 1⟩], []⟩).1.cart = [⟨"A", "Apple", 100, 1⟩] ∧
    (payment_success true true false true 0 100
        ⟨[⟨"A", "Apple", 100, 1⟩], []⟩).2.status = 500 ∧
    (payment_success true true false true 0 100
        ⟨[⟨"A", "Apple", 100, 1⟩], []⟩).2.error ≠ none :=
  (claim_C2 false true 0 100 ⟨[⟨"A", "Apple", 100, 1⟩], []⟩).2.1 rfl

/-- Claim C6, amended (corrected): while the payment gateway client is
not configured, both `createOrder` and `verifyAndCommit` fail with a
configuration error surfaced as an HTTP 500 server-error response (the
code returns 500, not 503 Service Unavailable), with no cart or ledger
change and no gateway request. -/
theorem claim_C6 (st : AppState) (dbOk sOk iOk cOk : Bool)
    (gw : Except String String) (t r : Nat) :
    create_order false dbOk gw st =
      (st, ⟨500, some "Razorpay not configured", none, none, false⟩) ∧
    payment_success false sOk iOk cOk t r st =
      (st, ⟨500, false, some "Payment gateway not configured.", none, homeUrl⟩) :=
  ⟨rfl, rfl⟩

/-- Claim C6 counterexample: the unconfigured-gateway responses of both
endpoints carry HTTP status 500, not the 503 Service Unavailable status
the claim asserts. -/
theorem cex_C6 :
    (create_order false true (.ok "oid") ⟨[], []⟩).2.status = 500 ∧
    (payment_success false true true true 0 100 ⟨[], []⟩).2.status = 500 ∧
    (500 : Nat) ≠ 503 :=
  ⟨rfl, rfl, by decide⟩

/-- Claim C5 (confirmed): with an empty cart, `GET /checkout` redirects
back to cart review, and `POST /create-order` issues no gateway request,
writes nothing, and — whenever it gets as far as reading the cart
(gateway configured, storage readable) — fails with the 400 client
error "Cart is empty" before any gateway request. -/
theorem claim_C5 (st : AppState) (configured dbOk : Bool)
    (gw : Except String String) (h : st.cart = []) :
    checkout dbOk st = .redirectHome ∧
    (create_order configured dbOk gw st).1 = st ∧
    (create_order configured dbOk gw st).2.gatewayCalled = false ∧
    (configured = true → dbOk = true →
      (create_order configured dbOk gw st).2.status = 400 ∧
      (create_order configured dbOk gw st).2.error = some "Cart is empty") := by
  cases configured <;> cases dbOk <;> simp [checkout, create_order, h]

/-- Claim C5 witness: a concrete empty-cart state with a configured
gateway redirects checkout home and rejects order creation with the 400
client error, without calling the gateway. -/
theorem wit_C5 :
    checkout true ⟨[], [⟨"7", 42, "completed"⟩]⟩ = .redirectHome ∧
    (create_order true true (.ok "oid") ⟨[], [⟨"7", 42, "completed"⟩]⟩).1 =
      ⟨[], [⟨"7", 42, "completed"⟩]⟩ ∧
    (create_order true true (.ok "oid")
        ⟨[], [⟨"7", 42, "completed"⟩]⟩).2.gatewayCalled = false ∧
    (create_order true true (.ok "oid") ⟨[], [⟨"7", 42, "completed"⟩]⟩).2.status = 400 ∧
    (create_order true true (.ok "oid") ⟨[], [⟨"7", 42, "completed"⟩]⟩).2.error =
      some "Cart is empty" := by
  have h := claim_C5 ⟨[], [⟨"7", 42, "completed"⟩]⟩ true true (.ok "oid") rfl
  exact ⟨h.1, h.2.1, h.2.2.1, (h.2.2.2 rfl rfl).1, (h.2.2.2 rfl rfl).2⟩

/-! ## Claim C4: the final-amount computation -/

/-- Claim C4 (confirmed): for every subtotal `t` reachable by the cart
total (any `t ≤ 2 ^ 45`, far beyond what 64-bit prices can sum to) and
every binary64 round-to-nearest result `r` of the double product
`t * 1.05`, the Python value `int(r)` equals `floor(t * 1.05)` computed
exactly; the embedded `finalAmount` agrees; subtotal 1000 yields 1050;
and the order-creation-time and payment-verification-time recomputations
of the final amount agree bit for bit on every cart. -/
theorem claim_C4 (t : Nat) (r : ℚ) (ht : t ≤ 2 ^ 45)
    (hr : RoundNearest ((t : ℚ) * c105) r) :
    pyInt r = ⌊(t : ℚ) * 1.05⌋ ∧
    finalAmount (t : Int) = ⌊(t : ℚ) * 1.05⌋ ∧
    finalAmount 1000 = 1050 ∧
    ∀ cart, createOrderFinalAmount cart = paymentVerifyFinalAmount cart := by
  obtain ⟨habs, hmono⟩ := hr
  obtain ⟨h1, h2⟩ := abs_le.mp habs
  set m : Nat := 21 * t / 20 with hm_def
  set s : Nat := 21 * t % 20 with hs_def
  have h20 : 20 * m + s = 21 * t := Nat.div_add_mod (21 * t) 20
  have hs19 : s ≤ 19 := by omega
  have hq : (20 : ℚ) * m + s = 21 * t := by exact_mod_cast h20
  have hsq : (s : ℚ) ≤ 19 := by exact_mod_cast hs19
  have hsq0 : (0 : ℚ) ≤ s := Nat.cast_nonneg s
  have htn : t ≤ 35184372088832 := by
    have hp : (2 : Nat) ^ 45 = 35184372088832 := by norm_num
    omega
  have htq : (t : ℚ) ≤ 35184372088832 := by exact_mod_cast htn
  have htq0 : (0 : ℚ) ≤ t := Nat.cast_nonneg t
  have hmq0 : (0 : ℚ) ≤ m := Nat.cast_nonneg m
  have hx : (t : ℚ) * c105 = (m : ℚ) + (s : ℚ) / 20 + (t : ℚ) / 22517998136852480 := by
    have hc : c105 = 21 / 20 + 1 / 22517998136852480 := by norm_num [c105]
    rw [hc]
    linear_combination (-1 / 20 : ℚ) * hq
  have hN : ((2 : ℚ) ^ 53) = 9007199254740992 := by norm_num
  rw [hN] at h1 h2
  have hm53 : m ≤ 2 ^ 53 := by
    have hp : (2 : Nat) ^ 53 = 9007199254740992 := by norm_num
    omega
  have hfloor_r : ⌊r⌋ = (m : Int) := by
    rw [Int.floor_eq_iff]
    constructor
    · push_cast
      rcases Nat.eq_zero_or_pos s with hz | hpos
      · have hms : (s : ℚ) = 0 := by exact_mod_cast hz
        have hmx : (m : ℚ) ≤ (t : ℚ) * c105 := by rw [hx]; linarith
        exact hmono m hm53 hmx
      · have hs1 : (1 : ℚ) ≤ (s : ℚ) := by exact_mod_cast hpos
        linarith
    · push_cast
      linarith
  have hr0 : (0 : ℚ) ≤ r := by
    have hk0 : ((0 : Nat) : ℚ) ≤ (t : ℚ) * c105 := by push_cast; rw [hx]; linarith
    have := hmono 0 (Nat.zero_le _) hk0
    push_cast at this
    exact this
  have h105 : (t : ℚ) * 1.05 = (m : ℚ) + (s : ℚ) / 20 := by
    rw [show (1.05 : ℚ) = 21 / 20 by norm_num]
    linear_combination (-1 / 20 : ℚ) * hq
  have hfloor105 : ⌊(t : ℚ) * 1.05⌋ = (m : Int) := by
    rw [Int.floor_eq_iff]
    constructor
    · push_cast; linarith
    · push_cast; linarith
  refine ⟨?_, ?_, ?_, ?_⟩
  · rw [pyInt_eq_floor r hr0, hfloor_r, hfloor105]
  · rw [finalAmount, show (((t : Int)) : ℚ) = (t : ℚ) by push_cast; rfl,
      pyInt_eq_floor _ (by rw [h105]; linarith)]
  · rw [finalAmount_of_nonneg 1000 (by norm_num)]; decide
  · intro cart
    cases cart <;>
      simp [createOrderFinalAmount, paymentVerifyFinalAmount, createOrderTotal, cartTotal]

/-- Claim C4 witness: at subtotal 1000 the double product rounds to the
exact binary64 value 1050, so Python truncation yields 1050, matching
the exact floor. -/
theorem wit_C4 :
    pyInt 1050 = ⌊((1000 : Nat) : ℚ) * 1.05⌋ ∧
    finalAmount ((1000 : Nat) : Int) = ⌊((1000 : Nat) : ℚ) * 1.05⌋ ∧
    finalAmount 1000 = 1050 ∧
    ∀ cart, createOrderFinalAmount cart = paymentVerifyFinalAmount cart := by
  refine claim_C4 1000 1050 (by norm_num) ⟨?_, ?_⟩
  · push_cast
    rw [abs_le]
    constructor <;> norm_num [c105]
  · intro k _hk hkx
    have hlt : (k : ℚ) < 1051 := by
      refine lt_of_le_of_lt hkx ?_
      push_cast
      norm_num [c105]
    have hk2 : k < 1051 := by exact_mod_cast hlt
    have hk3 : k ≤ 1050 := by omega
    exact_mod_cast hk3

/-! ## Claim C7: the cart invariant -/

theorem barcodes_map_update (cart : List CartLine) (f : CartLine → CartLine)
    (hf : ∀ l, (f l).barcode = l.barcode) :
    (cart.map f).map (fun l => l.barcode) = cart.map (fun l => l.barcode) := by
  rw [List.map_map]
  exact List.map_congr_left fun a _ => hf a

theorem cartInv_map (cart : List CartLine) (f : CartLine → CartLine)
    (hf : ∀ l, (f l).barcode = l.barcode)
    (hq : ∀ l ∈ cart, 1 ≤ l.qty → 1 ≤ (f l).qty)
    (hinv : CartInv cart) : CartInv (cart.map f) := by
  refine ⟨?_, ?_⟩
  · rw [barcodes_map_update cart f hf]; exact hinv.1
  · intro l hl
    obtain ⟨a, ha, rfl⟩ := List.mem_map.mp hl
    exact hq a ha (hinv.2 a ha)

theorem map_update_of_absent (cart : List CartLine) (b : String)
    (f : CartLine → CartLine)
    (hf : ∀ l ∈ cart, l.barcode ≠ b → f l = l)
    (h : ∀ l ∈ cart, l.barcode ≠ b) : cart.map f = cart := by
  have h2 : cart.map f = cart.map id := List.map_congr_left fun a ha => hf a ha (h a ha)
  rw [h2, List.map_id]

theorem filter_pos_qty (cart : List CartLine) (h : ∀ l ∈ cart, 1 ≤ l.qty) :
    cart.filter (fun l => decide (0 < l.qty)) = cart :=
  List.filter_eq_self.mpr fun a ha => by
    have := h a ha
    simp only [decide_eq_true_eq]
    omega

theorem filter_keep_of_ne (cart : List CartLine) (b : String)
    (h : ∀ l ∈ cart, l.barcode ≠ b) :
    cart.filter (fun l => !(l.barcode == b)) = cart :=
  List.filter_eq_self.mpr fun a ha => by simp [h a ha]

theorem decItem_absent (cart : List CartLine) (b : String)
    (hq : ∀ l ∈ cart, 1 ≤ l.qty) (h : ∀ l ∈ cart, l.barcode ≠ b) :
    decItem cart b = cart := by
  rw [decItem, map_update_of_absent cart b _ (fun l _ hne => if_neg hne) h,
    filter_pos_qty cart hq]

theorem decItem_qty_one (cart : List CartLine) (hinv : CartInv cart) (l : CartLine)
    (hl : l ∈ cart) (hq : l.qty = 1) :
    decItem cart l.barcode = deleteItem cart l.barcode := by
  induction cart with
  | nil => exact absurd hl (List.not_mem_nil l)
  | cons x rest ih =>
    have hnodup := hinv.1
    rw [List.map_cons, List.nodup_cons] at hnodup
    have hqty := hinv.2
    have hinv' : CartInv rest :=
      ⟨hnodup.2, fun y hy => hqty y (List.mem_cons_of_mem x hy)⟩
    by_cases hxb : x.barcode = l.barcode
    · have hlx : l = x := by
        rcases List.mem_cons.mp hl with h | h
        · exact h
        · exact absurd (hxb ▸ List.mem_map_of_mem (fun z => z.barcode) h) hnodup.1
      subst hlx
      have hrest_ne : ∀ y ∈ rest, y.barcode ≠ l.barcode := by
        intro y hy he
        exact hnodup.1 (hxb ▸ he ▸ List.mem_map_of_mem (fun z => z.barcode) hy)
      have hrest_q : ∀ y ∈ rest, 1 ≤ y.qty :=
        fun y hy => hqty y (List.mem_cons_of_mem l hy)
      simp only [decItem, deleteItem, List.map_cons, List.filter_cons, if_pos hxb]
      rw [hxb]
      simp only [hq, beq_self_eq_true, Bool.not_true]
      norm_num
      rw [map_update_of_absent rest l.barcode _ (fun z _ hne => if_neg hne) hrest_ne,
        filter_pos_qty rest hrest_q, filter_keep_of_ne rest l.barcode hrest_ne]
    · have hl' : l ∈ rest := by
        rcases List.mem_cons.mp hl with h | h
        · exact absurd (h ▸ rfl) hxb
        · exact h
      have hx1 : 1 ≤ x.qty := hqty x (List.mem_cons_self x rest)
      simp only [decItem, deleteItem, List.map_cons, List.filter_cons, if_neg hxb]
      have hbx : (x.barcode == l.barcode) = false := by
        simp [hxb]
      simp only [hbx, Bool.not_false, decide_eq_true_eq, if_pos (by omega : 0 < x.qty),
        if_pos rfl]
      have := ih hinv' hl'
      rw [decItem, deleteItem] at this
      rw [this]
      simp

/-- Claim C7 (confirmed): every cart operation — the scan upsert,
increment, decrement, per-item delete, bulk clear and the post-payment
clear — preserves the cart invariant (each barcode on at most one line,
every quantity at least 1); decrementing a line of quantity 1 removes
exactly that line (it coincides with the delete operation), and
decrementing an absent barcode is a no-op. -/
theorem claim_C7 (cart : List CartLine) (hinv : CartInv cart) :
    (∀ b n p q, 1 ≤ q → CartInv (addOrIncrement cart b n p q)) ∧
    (∀ b, CartInv (incItem cart b)) ∧
    (∀ b, CartInv (decItem cart b)) ∧
    (∀ b, CartInv (deleteItem cart b)) ∧
    CartInv (clearCart cart) ∧
    (∀ l, l ∈ cart → l.qty = 1 → decItem cart l.barcode = deleteItem cart l.barcode) ∧
    (∀ b, (∀ l ∈ cart, l.barcode ≠ b) → decItem cart b = cart) := by
  refine ⟨?_, ?_, ?_, ?_, ?_, ?_, ?_⟩
  · intro b n p q hq1
    rw [addOrIncrement]
    by_cases hany : cart.any (fun l => l.barcode == b) = true
    · rw [if_pos hany]
      refine cartInv_map cart _ (fun l => by by_cases h : l.barcode = b <;> simp [h]) ?_ hinv
      intro l _ h1
      by_cases h : l.barcode = b <;> simp [h] <;> omega
    · rw [if_neg hany]
      have habs : ∀ l ∈ cart, l.barcode ≠ b := by
        intro l hl he
        exact hany (List.any_eq_true.mpr ⟨l, hl, by simp [he]⟩)
      refine ⟨?_, ?_⟩
      · rw [List.map_append]
        rw [List.nodup_append]
        refine ⟨hinv.1, by simp, ?_⟩
        intro a ha hb
        obtain ⟨z, hz, rfl⟩ := List.mem_map.mp ha
        simp only [List.map_cons, List.map_nil, List.mem_cons, List.not_mem_nil,
          or_false] at hb
        exact habs z hz hb
      · intro l hl
        rcases List.mem_append.mp hl with h | h
        · exact hinv.2 l h
        · simp only [List.mem_cons, List.not_mem_nil, or_false] at h
          rw [h]
          exact hq1
  · intro b
    refine cartInv_map cart _ (fun l => by by_cases h : l.barcode = b <;> simp [h]) ?_ hinv
    intro l _ h1
    by_cases h : l.barcode = b <;> simp [h] <;> omega
  · intro b
    rw [decItem]
    refine ⟨?_, ?_⟩
    · have hsub := (List.filter_sublist
        (cart.map (fun l => if l.barcode = b then { l with qty := l.qty - 1 } else l))
        (p := fun l => decide (0 < l.qty))).map (fun l => l.barcode)
      refine List.Nodup.sublist hsub ?_
      rw [barcodes_map_update cart _ (fun l => by by_cases h : l.barcode = b <;> simp [h])]
      exact hinv.1
    · intro l hl
      have := (List.mem_filter.mp hl).2
      simp only [decide_eq_true_eq] at this
      omega
  · intro b
    refine ⟨?_, ?_⟩
    · exact List.Nodup.sublist ((List.filter_sublist cart).map fun l => l.barcode) hinv.1
    · intro l hl
      exact hinv.2 l (List.mem_of_mem_filter hl)
  · constructor <;> simp [clearCart]
  · intro l hl hq
    exact decItem_qty_one cart hinv l hl hq
  · intro b hb
    exact decItem_absent cart b hinv.2 hb

/-- Claim C7 witness: on a concrete two-line cart the invariant survives
an upsert and a decrement, decrementing the quantity-1 line equals
deleting it, and decrementing an absent barcode changes nothing. -/
theorem wit_C7 :
    CartInv (addOrIncrement [⟨"A", "Apple", 50, 2⟩, ⟨"B", "Ban", 30, 1⟩] "C" "Car" 10 3) ∧
    CartInv (decItem [⟨"A", "Apple", 50, 2⟩, ⟨"B", "Ban", 30, 1⟩] "A") ∧
    decItem [⟨"A", "Apple", 50, 2⟩, ⟨"B", "Ban", 30, 1⟩] "B" =
      deleteItem [⟨"A", "Apple", 50, 2⟩, ⟨"B", "Ban", 30, 1⟩] "B" ∧
    decItem [⟨"A", "Apple", 50, 2⟩, ⟨"B", "Ban", 30, 1⟩] "Z" =
      [⟨"A", "Apple", 50, 2⟩, ⟨"B", "Ban", 30, 1⟩] := by
  have h := claim_C7 [⟨"A", "Apple", 50, 2⟩, ⟨"B", "Ban", 30, 1⟩] (by decide)
  exact ⟨h.1 "C" "Car" 10 3 (by decide), h.2.2.1 "A",
    h.2.2.2.2.2.1 ⟨"B", "Ban", 30, 1⟩ (by decide) rfl,
    h.2.2.2.2.2.2 "Z" (by decide)⟩

/-! ## Claim C8: repeated scans accumulate coerced quantities -/

theorem qtyOf_addOrIncrement (cart : List CartLine) (b n : String) (p q : Int)
    (hcount : cart.countP (fun l => l.barcode == b) ≤ 1) :
    qtyOf (addOrIncrement cart b n p q) b = qtyOf cart b + q := by
  by_cases hany : cart.any (fun l => l.barcode == b) = true
  · obtain ⟨x, hx, hpx⟩ := List.any_eq_true.mp hany
    have hlen : (cart.filter (fun l => l.barcode == b)).length = 1 := by
      rw [List.countP_eq_length_filter] at hcount
      have hne : cart.filter (fun l => l.barcode == b) ≠ [] := by
        intro hnil
        exact (List.filter_eq_nil_iff.mp hnil) x hx hpx
      have := List.length_pos.mpr hne
      omega
    obtain ⟨y, hy⟩ := List.length_eq_one.mp hlen
    have hyb : y.barcode = b := by
      have hmem : y ∈ cart.filter (fun l => l.barcode == b) := by
        rw [hy]; exact List.mem_singleton_self y
      exact beq_iff_eq.mp (List.mem_filter.mp hmem).2
    have hcongr : List.filter
        ((fun l => l.barcode == b) ∘
          (fun l => if l.barcode = b then { l with qty := l.qty + q } else l)) cart =
        List.filter (fun l => l.barcode == b) cart :=
      List.filter_congr fun a _ => by
        by_cases h : a.barcode = b <;> simp [Function.comp, h]
    rw [addOrIncrement, if_pos hany, qtyOf, qtyOf, List.filter_map, hcongr, hy]
    simp [hyb]
  · have habs : ∀ l ∈ cart, l.barcode ≠ b := by
      intro l hl he
      exact hany (List.any_eq_true.mpr ⟨l, hl, by simp [he]⟩)
    have h0 : qtyOf cart b = 0 := by
      rw [qtyOf, List.filter_eq_nil_iff.mpr (fun a ha => by simp [habs a ha])]
      rfl
    rw [addOrIncrement, if_neg hany, qtyOf, List.filter_append,
      List.filter_eq_nil_iff.mpr (fun a ha => by simp [habs a ha]), h0]
    simp

theorem countP_addOrIncrement (cart : List CartLine) (b n : String) (p q : Int)
    (hcount : cart.countP (fun l => l.barcode == b) ≤ 1) :
    (addOrIncrement cart b n p q).countP (fun l => l.barcode == b) ≤ 1 := by
  by_cases hany : cart.any (fun l => l.barcode == b) = true
  · have hcongr : List.countP
        ((fun l => l.barcode == b) ∘
          (fun l => if l.barcode = b then { l with qty := l.qty + q } else l)) cart =
        List.countP (fun l => l.barcode == b) cart :=
      List.countP_congr fun a _ => by
        by_cases h : a.barcode = b <;> simp [Function.comp, h]
    rw [addOrIncrement, if_pos hany, List.countP_map, hcongr]
    exact hcount
  · have habs : ∀ l ∈ cart, l.barcode ≠ b := by
      intro l hl he
      exact hany (List.any_eq_true.mpr ⟨l, hl, by simp [he]⟩)
    rw [addOrIncrement, if_neg hany, List.countP_append,
      List.countP_eq_zero.mpr (fun a ha => by simp [habs a ha])]
    simp [List.countP_cons]

theorem qtyOf_scanFold (calls : List (String × Int × Option Int)) (b : String) :
    ∀ cart : List CartLine, cart.countP (fun l => l.barcode == b) ≤ 1 →
      qtyOf (calls.foldl (fun c args => scanAdd c b args.1 args.2.1 args.2.2) cart) b =
        qtyOf cart b + (calls.map (fun args => coerceQty args.2.2)).sum := by
  induction calls with
  | nil => intro cart _; simp
  | cons a rest ih =>
      intro cart h
      rw [List.foldl_cons,
        show scanAdd cart b a.1 a.2.1 a.2.2 =
          addOrIncrement cart b a.1 a.2.1 (coerceQty a.2.2) from rfl]
      rw [ih _ (countP_addOrIncrement cart b a.1 a.2.1 (coerceQty a.2.2) h),
        qtyOf_addOrIncrement cart b a.1 a.2.1 (coerceQty a.2.2) h]
      simp only [List.map_cons, List.sum_cons]
      ring

/-- Claim C8 (confirmed): starting from a cart without barcode `b`, any
finite sequence of scan-upserts targeting `b` (each carrying its own
product name, price and raw quantity) leaves `b` with quantity equal to
the sum of the coerced quantities: unparsable raw values and values
below 1 each count as 1. -/
theorem claim_C8 (calls : List (String × Int × Option Int)) (b : String)
    (cart₀ : List CartLine) (h : cart₀.countP (fun l => l.barcode == b) = 0) :
    qtyOf (calls.foldl (fun c args => scanAdd c b args.1 args.2.1 args.2.2) cart₀) b =
      (calls.map (fun args => coerceQty args.2.2)).sum := by
  have h0 : qtyOf cart₀ b = 0 := by
    rw [qtyOf, List.filter_eq_nil_iff.mpr (fun a ha => by
      simp only [Bool.not_eq_true]
      have := List.countP_eq_zero.mp h a ha
      simpa using this)]
    rfl
  rw [qtyOf_scanFold calls b cart₀ (by omega), h0]
  ring

/-- Claim C8 witness: three scans of the same barcode with raw
quantities 2, 0 and unparsable accumulate to 2 + 1 + 1 = 4. -/
theorem wit_C8 :
    qtyOf ([("Apple", (50 : Int), some (2 : Int)), ("Apple", 50, some 0),
        ("Apple", 50, none)].foldl
      (fun c args => scanAdd c "A1" args.1 args.2.1 args.2.2) []) "A1" = 4 :=
  (claim_C8 [("Apple", (50 : Int), some (2 : Int)), ("Apple", 50, some 0),
      ("Apple", 50, none)] "A1" [] (by decide)).trans (by decide)

/-! ## Claim C9: the catalog loader -/

theorem lookup_map_dictSet (k : List Char) (v : CatProduct) :
    ∀ d : List (List Char × CatProduct), d.any (fun kv => kv.1 == k) = true →
      (d.map (fun kv => if kv.1 == k then (k, v) else kv)).lookup k = some v := by
  intro d
  induction d with
  | nil => intro h; simp at h
  | cons hd tl ih =>
      obtain ⟨k0, v0⟩ := hd
      intro h
      by_cases hh : (k0 == k) = true
      · rw [List.map_cons, if_pos (show ((k0, v0).1 == k) = true from hh)]
        exact List.lookup_cons_self
      · rw [List.map_cons, if_neg (show ¬((k0, v0).1 == k) = true from hh),
          List.lookup_cons]
        have hf : (k0 == k) = false := by simpa using hh
        have hne : k0 ≠ k := beq_eq_false_iff_ne.mp hf
        have hk : (k == k0) = false := beq_eq_false_iff_ne.mpr (Ne.symm hne)
        rw [hk]
        have h1 : ((k0 == k) || (tl.any fun kv => kv.1 == k)) = true := h
        rw [hf, Bool.false_or] at h1
        exact ih h1

theorem lookup_append_last (k : List Char) (v : CatProduct) :
    ∀ d : List (List Char × CatProduct), (∀ kv ∈ d, (kv.1 == k) = false) →
      (d ++ [(k, v)]).lookup k = some v := by
  intro d
  induction d with
  | nil => intro _; simp
  | cons hd tl ih =>
      obtain ⟨k0, v0⟩ := hd
      intro h
      rw [List.cons_append, List.lookup_cons]
      have hf : (k0 == k) = false := h (k0, v0) (List.mem_cons_self _ tl)
      have hne : k0 ≠ k := beq_eq_false_iff_ne.mp hf
      have hk : (k == k0) = false := beq_eq_false_iff_ne.mpr (Ne.symm hne)
      rw [hk]
      exact ih fun kv hkv => h kv (List.mem_cons_of_mem _ hkv)

theorem lookup_dictSet (d : List (List Char × CatProduct)) (k : List Char)
    (v : CatProduct) : (dictSet d k v).lookup k = some v := by
  rw [dictSet]
  by_cases h : d.any (fun kv => kv.1 == k) = true
  · rw [if_pos h]
    exact lookup_map_dictSet k v d h
  · rw [if_neg h]
    refine lookup_append_last k v d ?_
    intro kv hkv
    rcases hb : (kv.1 == k) with _ | _
    · rfl
    · exact absurd (List.any_eq_true.mpr ⟨kv, hkv, hb⟩) h

theorem load_products_snoc (lines : List (List Char)) (line b : List Char)
    (pr : CatProduct) (h : parseLine line = some (b, pr)) :
    load_products (some (lines ++ [line])) =
      dictSet (load_products (some lines)) b pr := by
  simp [load_products, List.foldl_append, h]

/-- Claim C9 (confirmed): `load_products` excludes a catalog line exactly
when its comma-split field count is not 3, its barcode is empty after
trimming, or its price fails integer parsing; an accepted line is stored
under the trimmed barcode with the trimmed name and the absolute value
of the parsed price (so negative prices are stored as their absolute
value); an entirely absent source yields the empty mapping; and on
duplicate barcodes the last line wins. -/
theorem claim_C9 (line : List Char) (prev : List (List Char)) :
    (parseLine line = none ↔ lineExcluded line) ∧
    (∀ b pr, parseLine line = some (b, pr) →
      (∃ f0 f1 f2 v, splitComma (trimChars line) = [f0, f1, f2] ∧
        b = trimChars f0 ∧ pr.name = trimChars f1 ∧
        pyParseInt (trimChars f2) = some v ∧ pr.price = |v|) ∧
      (load_products (some (prev ++ [line]))).lookup b = some pr) ∧
    load_products none = [] := by
  refine ⟨?_, ?_, rfl⟩
  · by_cases hbl : trimChars line = []
    · constructor
      · intro _
        left
        rw [hbl]
        simp [splitComma]
      · intro _
        simp [parseLine, hbl]
    · rcases hsp : splitComma (trimChars line) with _ | ⟨f0, _ | ⟨f1, _ | ⟨f2, _ | ⟨f3, l4⟩⟩⟩⟩
      · constructor
        · intro _; left; rw [hsp]; simp
        · intro _; simp [parseLine, hbl, hsp]
      · constructor
        · intro _; left; rw [hsp]; simp
        · intro _; simp [parseLine, hbl, hsp]
      · constructor
        · intro _; left; rw [hsp]; simp
        · intro _; simp [parseLine, hbl, hsp]
      · constructor
        · intro hnone
          right
          by_cases hb0 : trimChars f0 = []
          · exact ⟨f0, f1, f2, hsp, Or.inl hb0⟩
          · rcases hpp : pyParseInt (trimChars f2) with _ | v
            · exact ⟨f0, f1, f2, hsp, Or.inr hpp⟩
            · simp [parseLine, hbl, hsp, hb0, hpp] at hnone
        · intro hex
          rcases hex with hlen | ⟨g0, g1, g2, hspg, hor⟩
          · rw [hsp] at hlen
            simp at hlen
          · rw [hsp] at hspg
            injection hspg with e0 hrest
            injection hrest with e1 hrest2
            injection hrest2 with e2 _
            subst e0; subst e1; subst e2
            rcases hor with hb0 | hpp
            · simp [parseLine, hbl, hsp, hb0]
            · by_cases hb0 : trimChars f0 = [] <;>
                simp [parseLine, hbl, hsp, hb0, hpp]
      · constructor
        · intro _; left; rw [hsp]; simp
        · intro _; simp [parseLine, hbl, hsp]
  · intro b pr hsome
    have hsome0 := hsome
    by_cases hbl : trimChars line = []
    · simp [parseLine, hbl] at hsome
    · rcases hsp : splitComma (trimChars line) with _ | ⟨f0, _ | ⟨f1, _ | ⟨f2, _ | ⟨f3, l4⟩⟩⟩⟩ <;>
        rw [parseLine, if_neg hbl, hsp] at hsome
      · exact absurd hsome (by simp)
      · exact absurd hsome (by simp)
      · exact absurd hsome (by simp)
      · have hsome1 :
            (if trimChars f0 = [] then none
             else
               match pyParseInt (trimChars f2) with
               | none => none
               | some v =>
                   some (trimChars f0,
                     ⟨trimChars f1, if v < 0 then -v else v⟩)) = some (b, pr) := hsome
        by_cases hb0 : trimChars f0 = []
        · rw [if_pos hb0] at hsome1
          exact absurd hsome1 (by simp)
        · rw [if_neg hb0] at hsome1
          rcases hpp : pyParseInt (trimChars f2) with _ | v <;> rw [hpp] at hsome1
          · exact absurd hsome1 (by simp)
          · simp only [Option.some.injEq, Prod.mk.injEq] at hsome1
            have hsome := hsome1
            obtain ⟨hb, hpr⟩ := hsome
            refine ⟨⟨f0, f1, f2, v, rfl, hb.symm, ?_, hpp, ?_⟩, ?_⟩
            · rw [← hpr]
            · rw [← hpr]
              by_cases hv : v < 0
              · simp [hv, abs_of_neg hv]
              · simp [hv, abs_of_nonneg (not_lt.mp hv)]
            · rw [load_products_snoc prev line b pr hsome0]
              exact lookup_dictSet _ b pr
      · exact absurd hsome (by simp)

/-- Claim C9 witness: the line " A1 , Apple , -50 " is accepted, stored
under the trimmed barcode with the negative price replaced by 50, and
overrides the earlier line for the same barcode. -/
theorem wit_C9 :
    parseLine (" A1 , Apple , -50 ".toList) =
      some ("A1".toList, ⟨"Apple".toList, 50⟩) ∧
    (load_products (some (["A1,Old,7".toList] ++
        [" A1 , Apple , -50 ".toList]))).lookup ("A1".toList) =
      some ⟨"Apple".toList, 50⟩ :=
  ⟨by decide,
    ((claim_C9 (" A1 , Apple , -50 ".toList) ["A1,Old,7".toList]).2.1
      ("A1".toList) ⟨"Apple".toList, 50⟩ (by decide)).2⟩

end BarcodeApp
